import Mathlib

/-!
Verification of the FiPy term-composition and assembly engine against its
specification.  The definitions below are shallow embeddings of
`src/fipy/terms/vanLeerConvectionTerm.py` and `src/fipy/terms/term.py`:
`Numeric` array operations become elementwise operations on `List ℚ`,
Python attribute mutation becomes explicit state passing, and Python
exceptions become `Except String`.
-/

/-! ## Elementwise array primitives (mirroring the `Numeric` module) -/

/-- Elementwise sum of two arrays, as produced by `a + b` on `Numeric` arrays. -/
def npAdd (a b : List ℚ) : List ℚ := List.zipWith (· + ·) a b

/-- Elementwise difference `a - b` of two `Numeric` arrays. -/
def npSub (a b : List ℚ) : List ℚ := List.zipWith (· - ·) a b

/-- Elementwise product `a * b` of two `Numeric` arrays. -/
def npMul (a b : List ℚ) : List ℚ := List.zipWith (· * ·) a b

/-- Elementwise quotient `a / b` of two `Numeric` arrays. -/
def npDiv (a b : List ℚ) : List ℚ := List.zipWith (· / ·) a b

/-- Elementwise negation `-a` of a `Numeric` array. -/
def npNeg (a : List ℚ) : List ℚ := a.map (fun x => -x)

/-- Multiplication of a `Numeric` array by a scalar (`s * a` or `a * s`). -/
def npScale (s : ℚ) (a : List ℚ) : List ℚ := a.map (fun x => s * x)

/-- Elementwise absolute value `abs(a)` of a `Numeric` array. -/
def npAbs (a : List ℚ) : List ℚ := a.map (fun x => |x|)

/-- The `Numeric.minimum(a, b)` elementwise minimum. -/
def npMinimum (a b : List ℚ) : List ℚ := List.zipWith min a b

/-- The `Numeric.maximum(a, b)` elementwise maximum. -/
def npMaximum (a b : List ℚ) : List ℚ := List.zipWith max a b

/-- Elementwise comparison `a < s` of an array against a scalar,
producing a boolean mask. -/
def npLtS (a : List ℚ) (s : ℚ) : List Bool := a.map (fun x => decide (x < s))

/-- Elementwise comparison `a > s` of an array against a scalar. -/
def npGtS (a : List ℚ) (s : ℚ) : List Bool := a.map (fun x => decide (s < x))

/-- The `Numeric.where(cond, x, y)` selection with three array arguments. -/
def npWhere : List Bool → List ℚ → List ℚ → List ℚ
  | c :: cs, x :: xs, y :: ys => (if c then x else y) :: npWhere cs xs ys
  | _, _, _ => []

/-- The `Numeric.where(cond, s, y)` selection with a broadcast scalar
second argument. -/
def npWhereS (c : List Bool) (s : ℚ) (ys : List ℚ) : List ℚ :=
  List.zipWith (fun b y => if b then s else y) c ys

/-- The `array.take(xs, ids)` fancy-indexing primitive: select the entries
of `xs` at the positions listed in `ids` (out-of-range reads default to 0
in this total embedding; FiPy never indexes out of range). -/
def npTake (xs : List ℚ) (ids : List ℕ) : List ℚ := ids.map (fun i => xs.getD i 0)

/-- `array.take` on an array of per-cell vectors (one row per cell). -/
def npTakeV (xs : List (List ℚ)) (ids : List ℕ) : List (List ℚ) :=
  ids.map (fun i => xs.getD i [])

/-- Row-by-row negation of an array of vectors, as in `-interiorFaceNormals`. -/
def npNegV (a : List (List ℚ)) : List (List ℚ) := a.map npNeg

/-- Scalar dot product of two vectors. -/
def dotQ (a b : List ℚ) : ℚ := (List.zipWith (· * ·) a b).sum

/-- Row-wise dot product, as in `array.dot(takenGradients, faceNormals)`. -/
def npDot (a b : List (List ℚ)) : List ℚ := List.zipWith dotQ a b

/-! ## VanLeerConvectionTerm.getGradient (vanLeerConvectionTerm.py lines 55-64) -/

/-- Direct transcription of `VanLeerConvectionTerm.getGradient`: build
`gradUpUpwind = -gradUpwind + 2 * normalGradient` and apply the nested
`Numeric.where` limiter expression from the source. -/
def getGradient (normalGradient gradUpwind : List ℚ) : List ℚ :=
  let gradUpUpwind := npAdd (npNeg gradUpwind) (npScale 2 normalGradient)
  npWhereS (npLtS (npMul gradUpwind gradUpUpwind) 0) 0
    (npWhere (npGtS gradUpUpwind 0)
      (npMinimum gradUpwind gradUpUpwind)
      (npNeg (npMinimum (npAbs gradUpwind) (npAbs gradUpUpwind))))

/-- The scalar van Leer limiter that `getGradient` applies at each face. -/
def vanLeerLimiter (normalGradient gradUpwind : ℚ) : ℚ :=
  let gradUpUpwind := -gradUpwind + 2 * normalGradient
  if gradUpwind * gradUpUpwind < 0 then 0
  else if 0 < gradUpUpwind then min gradUpwind gradUpUpwind
  else -(min |gradUpwind| |gradUpUpwind|)

theorem getGradient_nil_left (gu : List ℚ) : getGradient [] gu = [] := by
  cases gu <;> rfl

theorem getGradient_nil_right (ng : List ℚ) : getGradient ng [] = [] := by
  cases ng <;> rfl

theorem getGradient_cons (n g : ℚ) (ns gs : List ℚ) :
    getGradient (n :: ns) (g :: gs) = vanLeerLimiter n g :: getGradient ns gs := by
  simp only [getGradient, vanLeerLimiter, npAdd, npNeg, npScale, npMul, npLtS, npGtS,
    npWhereS, npWhere, npMinimum, npAbs, List.map_cons, List.zipWith_cons_cons]
  by_cases h1 : g * (-g + 2 * n) < 0
  · simp [h1]
  · by_cases h2 : 0 < -g + 2 * n <;> simp [h1, h2]

/-- The array-level `getGradient` is the elementwise application of the
scalar limiter. -/
theorem getGradient_eq_zipWith (ng gu : List ℚ) :
    getGradient ng gu = List.zipWith vanLeerLimiter ng gu := by
  induction ng generalizing gu with
  | nil => simp [getGradient_nil_left]
  | cons n ns ih =>
    cases gu with
    | nil => simp [getGradient_nil_right]
    | cons g gs => rw [getGradient_cons, ih]; rfl

/-- C1: Van Leer limiter: for every pair of input arrays `(normalGradient,
gradUpwind)` of equal length, `getGradient` computes
`gradUpUpwind = -gradUpwind + 2 * normalGradient` and returns, elementwise:
0 where `gradUpwind * gradUpUpwind < 0`; the minimum of `gradUpwind` and
`gradUpUpwind` where `gradUpUpwind > 0`; and otherwise the negative of the
minimum of `|gradUpwind|` and `|gradUpUpwind|`.  In particular, for every
gradient pair of opposite signs the limited correction is exactly zero. -/
theorem vanLeer_getGradient_spec (ng gu : List ℚ) (h : ng.length = gu.length) :
    (getGradient ng gu).length = gu.length ∧
    (∀ i : ℕ, i < gu.length →
      (getGradient ng gu).getD i 0 =
        (if gu.getD i 0 * (-(gu.getD i 0) + 2 * ng.getD i 0) < 0 then 0
         else if 0 < -(gu.getD i 0) + 2 * ng.getD i 0 then
           min (gu.getD i 0) (-(gu.getD i 0) + 2 * ng.getD i 0)
         else -(min |gu.getD i 0| |(-(gu.getD i 0) + 2 * ng.getD i 0)|))) ∧
    (∀ i : ℕ, i < gu.length →
      gu.getD i 0 * (-(gu.getD i 0) + 2 * ng.getD i 0) < 0 →
      (getGradient ng gu).getD i 0 = 0) := by
  have hz := getGradient_eq_zipWith ng gu
  have hlen : (getGradient ng gu).length = gu.length := by
    rw [hz, List.length_zipWith, h, Nat.min_self]
  have key : ∀ i : ℕ, i < gu.length →
      (getGradient ng gu).getD i 0 =
        (if gu.getD i 0 * (-(gu.getD i 0) + 2 * ng.getD i 0) < 0 then 0
         else if 0 < -(gu.getD i 0) + 2 * ng.getD i 0 then
           min (gu.getD i 0) (-(gu.getD i 0) + 2 * ng.getD i 0)
         else -(min |gu.getD i 0| |(-(gu.getD i 0) + 2 * ng.getD i 0)|)) := by
    intro i hi
    have hng : i < ng.length := h ▸ hi
    have h1 : i < (getGradient ng gu).length := hlen ▸ hi
    rw [List.getD_eq_getElem _ _ h1, List.getD_eq_getElem _ _ hi, List.getD_eq_getElem _ _ hng]
    have h2 : (getGradient ng gu)[i] = vanLeerLimiter ng[i] gu[i] := by
      simp only [hz]
      exact List.getElem_zipWith
    rw [h2, vanLeerLimiter]
  refine ⟨hlen, key, fun i hi hneg => ?_⟩
  rw [key i hi, if_pos hneg]

theorem vanLeer_getGradient_spec_witness :
    (getGradient [1, -1, 2] [-2, 3, 1]).length = ([-2, 3, 1] : List ℚ).length ∧
    (∀ i : ℕ, i < ([-2, 3, 1] : List ℚ).length →
      (getGradient [1, -1, 2] [-2, 3, 1]).getD i 0 =
        (if ([-2, 3, 1] : List ℚ).getD i 0 *
              (-(([-2, 3, 1] : List ℚ).getD i 0) + 2 * ([1, -1, 2] : List ℚ).getD i 0) < 0 then 0
         else if 0 < -(([-2, 3, 1] : List ℚ).getD i 0) + 2 * ([1, -1, 2] : List ℚ).getD i 0 then
           min (([-2, 3, 1] : List ℚ).getD i 0)
             (-(([-2, 3, 1] : List ℚ).getD i 0) + 2 * ([1, -1, 2] : List ℚ).getD i 0)
         else -(min |([-2, 3, 1] : List ℚ).getD i 0|
             |(-(([-2, 3, 1] : List ℚ).getD i 0) + 2 * ([1, -1, 2] : List ℚ).getD i 0)|))) ∧
    (∀ i : ℕ, i < ([-2, 3, 1] : List ℚ).length →
      ([-2, 3, 1] : List ℚ).getD i 0 *
          (-(([-2, 3, 1] : List ℚ).getD i 0) + 2 * ([1, -1, 2] : List ℚ).getD i 0) < 0 →
      (getGradient [1, -1, 2] [-2, 3, 1]).getD i 0 = 0) :=
  vanLeer_getGradient_spec [1, -1, 2] [-2, 3, 1] (by decide)

/-! ## VanLeerConvectionTerm state (vanLeerConvectionTerm.py lines 54-106) -/

/-- The mesh queries consumed by `getOldAdjacentValues` (external
collaborator interface, per-face and per-cell ordered sequences). -/
structure Mesh where
  interiorFaceIDs : List ℕ
  faceAreas : List ℚ
  orientedFaceNormals : List (List ℚ)
  cellDistances : List ℚ
  cellVolumes : List ℚ

/-- The per-instance state of a `VanLeerConvectionTerm` used by
`getOldAdjacentValues` and `getFigureOfMerit`: the per-face coefficient
`self.coeff`, the timestep `self.dt`, the mesh, and the tracked per-face
CFL array `self.CFL`. -/
structure VanLeerConvectionTerm where
  coeff : List ℚ
  dt : ℚ
  mesh : Mesh
  CFL : List ℚ

/-- The Python builtin `min` over a sequence: `None` (an exception in
Python) on the empty list, otherwise the least element. -/
def pyMin : List ℚ → Option ℚ
  | [] => none
  | x :: xs => some (xs.foldl min x)

/-- Transcription of `VanLeerConvectionTerm.getOldAdjacentValues`
(lines 66-103).  The superclass call
`ExplicitUpwindConvectionTerm.getOldAdjacentValues(self, oldArray, id1, id2)`
is not part of the sources under verification, so its two outputs enter
here as the inputs `oldArray1`, `oldArray2`; `oldGrad` stands for
`oldArray.getGrad()` (one gradient vector per cell).  Returns the two
corrected adjacent-value arrays together with the updated term state
(the assignment to `self.CFL`). -/
def getOldAdjacentValues (t : VanLeerConvectionTerm)
    (oldArray1 oldArray2 : List ℚ) (oldGrad : List (List ℚ)) (id1 id2 : List ℕ) :
    List ℚ × List ℚ × VanLeerConvectionTerm :=
  let interiorIDs := t.mesh.interiorFaceIDs
  let interiorFaceAreas := npTake t.mesh.faceAreas interiorIDs
  let interiorFaceNormals := npTakeV t.mesh.orientedFaceNormals interiorIDs
  let interiorCFL := npScale t.dt (npAbs (npTake t.coeff interiorIDs))
  let gradUpwind := npDiv (npSub oldArray2 oldArray1) (npTake t.mesh.cellDistances interiorIDs)
  let vol1 := npTake t.mesh.cellVolumes id1
  let CFL1 := npDiv interiorCFL vol1
  let newArray1 := npAdd oldArray1
    (npDiv (npMul (npScale (1/2)
        (getGradient (npDot (npTakeV oldGrad id1) interiorFaceNormals) gradUpwind))
      (npSub vol1 interiorCFL)) interiorFaceAreas)
  let vol2 := npTake t.mesh.cellVolumes id2
  let CFL2 := npMaximum (npDiv interiorCFL vol2) CFL1
  let newArray2 := npAdd oldArray2
    (npDiv (npMul (npScale (1/2)
        (getGradient (npDot (npTakeV oldGrad id2) (npNegV interiorFaceNormals)) (npNeg gradUpwind)))
      (npSub vol2 interiorCFL)) interiorFaceAreas)
  (newArray1, newArray2, { t with CFL := CFL2 })

/-- Transcription of `VanLeerConvectionTerm.getFigureOfMerit` (lines
105-106): `min(0.2 / self.CFL)`, the Python `min` of the elementwise
quotient (0.2 = 1/5 exactly as a rational). -/
def getFigureOfMerit (t : VanLeerConvectionTerm) : Option ℚ :=
  pyMin (t.CFL.map (fun c => (1/5) / c))

theorem pyMin_eq_min? (l : List ℚ) : pyMin l = l.min? := by
  cases l <;> rfl

theorem pyMin_spec {l : List ℚ} {m : ℚ} (h : pyMin l = some m) :
    m ∈ l ∧ ∀ y ∈ l, m ≤ y := by
  rw [pyMin_eq_min?] at h
  have anti : Std.Antisymm (fun x1 x2 : ℚ => x1 ≤ x2) :=
    ⟨fun h1 h2 => le_antisymm h1 h2⟩
  exact (@List.min?_eq_some_iff ℚ m _ _ anti (fun a => le_refl a)
    (fun a b => min_choice a b) (fun a b c => le_min_iff)).1 h

theorem pyMin_isSome {l : List ℚ} (h : l ≠ []) : ∃ m, pyMin l = some m := by
  cases l with
  | nil => exact absurd rfl h
  | cons x xs => exact ⟨xs.foldl min x, rfl⟩

theorem vanLeer_CFL_eq (t : VanLeerConvectionTerm) (a1 a2 : List ℚ)
    (g : List (List ℚ)) (id1 id2 : List ℕ) :
    ((getOldAdjacentValues t a1 a2 g id1 id2).2.2).CFL =
      npMaximum
        (npDiv (npScale t.dt (npAbs (npTake t.coeff t.mesh.interiorFaceIDs)))
          (npTake t.mesh.cellVolumes id2))
        (npDiv (npScale t.dt (npAbs (npTake t.coeff t.mesh.interiorFaceIDs)))
          (npTake t.mesh.cellVolumes id1)) := rfl

theorem vanLeer_CFL_length (t : VanLeerConvectionTerm) (a1 a2 : List ℚ)
    (g : List (List ℚ)) (id1 id2 : List ℕ)
    (h1 : id1.length = t.mesh.interiorFaceIDs.length)
    (h2 : id2.length = t.mesh.interiorFaceIDs.length) :
    ((getOldAdjacentValues t a1 a2 g id1 id2).2.2).CFL.length =
      t.mesh.interiorFaceIDs.length := by
  rw [vanLeer_CFL_eq]
  simp [npMaximum, npDiv, npScale, npAbs, npTake, List.length_zipWith, h1, h2]

theorem vanLeer_CFL_getD (t : VanLeerConvectionTerm) (a1 a2 : List ℚ)
    (g : List (List ℚ)) (id1 id2 : List ℕ)
    (h1 : id1.length = t.mesh.interiorFaceIDs.length)
    (h2 : id2.length = t.mesh.interiorFaceIDs.length)
    (i : ℕ) (hi : i < t.mesh.interiorFaceIDs.length) :
    ((getOldAdjacentValues t a1 a2 g id1 id2).2.2).CFL.getD i 0 =
      max (t.dt * |t.coeff.getD (t.mesh.interiorFaceIDs.getD i 0) 0| /
            t.mesh.cellVolumes.getD (id2.getD i 0) 0)
          (t.dt * |t.coeff.getD (t.mesh.interiorFaceIDs.getD i 0) 0| /
            t.mesh.cellVolumes.getD (id1.getD i 0) 0) := by
  have hC : i < ((getOldAdjacentValues t a1 a2 g id1 id2).2.2).CFL.length := by
    rw [vanLeer_CFL_length t a1 a2 g id1 id2 h1 h2]; exact hi
  have hi1 : i < id1.length := by rw [h1]; exact hi
  have hi2 : i < id2.length := by rw [h2]; exact hi
  rw [List.getD_eq_getElem _ _ hC, List.getD_eq_getElem t.mesh.interiorFaceIDs 0 hi,
    List.getD_eq_getElem id1 0 hi1, List.getD_eq_getElem id2 0 hi2]
  simp only [vanLeer_CFL_eq, npMaximum, npDiv, npScale, npAbs, npTake,
    List.getElem_zipWith, List.getElem_map]

theorem pyMin_inv_spec (C : List ℚ) (n : ℕ) (hlen : C.length = n) (hn : 0 < n) :
    (∃ m, pyMin (C.map (fun c => (1/5)/c)) = some m ∧
      (∃ i : ℕ, ∃ hi : i < n, m = (1/5) / C.getD i 0) ∧
      (∀ i : ℕ, i < n → m ≤ (1/5) / C.getD i 0)) ∧
    ((∀ i : ℕ, i < n → C.getD i 0 = 1/10) →
      pyMin (C.map (fun c => (1/5)/c)) = some 2) := by
  have hne : C.map (fun c => (1/5)/c) ≠ [] := by
    have hpos : 0 < (C.map (fun c => (1/5)/c)).length := by
      rw [List.length_map, hlen]; exact hn
    exact List.length_pos.mp hpos
  obtain ⟨m, hm⟩ := pyMin_isSome hne
  obtain ⟨hmem, hle⟩ := pyMin_spec hm
  constructor
  · refine ⟨m, hm, ?_, ?_⟩
    · rcases List.mem_map.1 hmem with ⟨c, hcmem, hfc⟩
      rcases List.mem_iff_getElem.1 hcmem with ⟨j, hj, hjc⟩
      refine ⟨j, by rw [← hlen]; exact hj, ?_⟩
      rw [List.getD_eq_getElem _ _ hj, hjc, ← hfc]
    · intro i hi
      have hiC : i < C.length := by rw [hlen]; exact hi
      rw [List.getD_eq_getElem _ _ hiC]
      exact hle _ (List.mem_map.2 ⟨C[i], List.getElem_mem hiC, rfl⟩)
  · intro huni
    refine hm.trans ?_
    rcases List.mem_map.1 hmem with ⟨c, hcmem, hfc⟩
    rcases List.mem_iff_getElem.1 hcmem with ⟨j, hj, hjc⟩
    have hval : c = 1/10 := by
      have h10 := huni j (by rw [← hlen]; exact hj)
      rw [List.getD_eq_getElem _ _ hj, hjc] at h10; exact h10
    rw [← hfc, hval]
    norm_num

/-- C2: CFL tracking and figure of merit: after `getOldAdjacentValues`
runs on a `VanLeerConvectionTerm`, the stored CFL array holds, per
interior face, the elementwise maximum of `|coeff| * dt / vol1` and
`|coeff| * dt / vol2` over the two adjacent cells, and `getFigureOfMerit`
then returns the minimum over all interior faces of `0.2 / CFL`; in
particular, when the CFL ratio is uniformly 0.1 the figure of merit
equals 2.0. -/
theorem vanLeer_CFL_figureOfMerit (t : VanLeerConvectionTerm) (a1 a2 : List ℚ)
    (g : List (List ℚ)) (id1 id2 : List ℕ)
    (h1 : id1.length = t.mesh.interiorFaceIDs.length)
    (h2 : id2.length = t.mesh.interiorFaceIDs.length)
    (hn : 0 < t.mesh.interiorFaceIDs.length) :
    (∀ i : ℕ, i < t.mesh.interiorFaceIDs.length →
      ((getOldAdjacentValues t a1 a2 g id1 id2).2.2).CFL.getD i 0 =
        max (|t.coeff.getD (t.mesh.interiorFaceIDs.getD i 0) 0| * t.dt /
              t.mesh.cellVolumes.getD (id1.getD i 0) 0)
            (|t.coeff.getD (t.mesh.interiorFaceIDs.getD i 0) 0| * t.dt /
              t.mesh.cellVolumes.getD (id2.getD i 0) 0)) ∧
    (∃ m, getFigureOfMerit ((getOldAdjacentValues t a1 a2 g id1 id2).2.2) = some m ∧
      (∃ i : ℕ, ∃ hi : i < t.mesh.interiorFaceIDs.length,
        m = (1/5) / ((getOldAdjacentValues t a1 a2 g id1 id2).2.2).CFL.getD i 0) ∧
      (∀ i : ℕ, i < t.mesh.interiorFaceIDs.length →
        m ≤ (1/5) / ((getOldAdjacentValues t a1 a2 g id1 id2).2.2).CFL.getD i 0)) ∧
    ((∀ i : ℕ, i < t.mesh.interiorFaceIDs.length →
        ((getOldAdjacentValues t a1 a2 g id1 id2).2.2).CFL.getD i 0 = 1/10) →
      getFigureOfMerit ((getOldAdjacentValues t a1 a2 g id1 id2).2.2) = some 2) := by
  have hFoM : getFigureOfMerit ((getOldAdjacentValues t a1 a2 g id1 id2).2.2) =
      pyMin (((getOldAdjacentValues t a1 a2 g id1 id2).2.2).CFL.map (fun c => (1/5)/c)) := rfl
  have hlen := vanLeer_CFL_length t a1 a2 g id1 id2 h1 h2
  have haux := pyMin_inv_spec ((getOldAdjacentValues t a1 a2 g id1 id2).2.2).CFL _ hlen hn
  refine ⟨?_, ?_, ?_⟩
  · intro i hi
    rw [vanLeer_CFL_getD t a1 a2 g id1 id2 h1 h2 i hi, max_comm, mul_comm t.dt]
  · rw [hFoM]; exact haux.1
  · intro huni; rw [hFoM]; exact haux.2 huni

/-- A concrete two-cell mesh with a single interior face, used to
instantiate theorems about the van Leer scheme. -/
def demoMesh : Mesh :=
  { interiorFaceIDs := [1]
    faceAreas := [1, 1, 1]
    orientedFaceNormals := [[1], [1], [1]]
    cellDistances := [1, 1, 1]
    cellVolumes := [1, 1] }

/-- A concrete van Leer term on `demoMesh` with unit face coefficients
and `dt = 1/10`, so the CFL ratio is 1/10 on the interior face. -/
def demoVLT : VanLeerConvectionTerm :=
  { coeff := [1, 1, 1]
    dt := 1/10
    mesh := demoMesh
    CFL := [] }

theorem vanLeer_CFL_figureOfMerit_witness :
    (∀ i : ℕ, i < demoVLT.mesh.interiorFaceIDs.length →
      ((getOldAdjacentValues demoVLT [0] [0] [[0], [0]] [0] [1]).2.2).CFL.getD i 0 =
        max (|demoVLT.coeff.getD (demoVLT.mesh.interiorFaceIDs.getD i 0) 0| * demoVLT.dt /
              demoVLT.mesh.cellVolumes.getD (([0] : List ℕ).getD i 0) 0)
            (|demoVLT.coeff.getD (demoVLT.mesh.interiorFaceIDs.getD i 0) 0| * demoVLT.dt /
              demoVLT.mesh.cellVolumes.getD (([1] : List ℕ).getD i 0) 0)) ∧
    (∃ m, getFigureOfMerit ((getOldAdjacentValues demoVLT [0] [0] [[0], [0]] [0] [1]).2.2) = some m ∧
      (∃ i : ℕ, ∃ hi : i < demoVLT.mesh.interiorFaceIDs.length,
        m = (1/5) / ((getOldAdjacentValues demoVLT [0] [0] [[0], [0]] [0] [1]).2.2).CFL.getD i 0) ∧
      (∀ i : ℕ, i < demoVLT.mesh.interiorFaceIDs.length →
        m ≤ (1/5) / ((getOldAdjacentValues demoVLT [0] [0] [[0], [0]] [0] [1]).2.2).CFL.getD i 0)) ∧
    ((∀ i : ℕ, i < demoVLT.mesh.interiorFaceIDs.length →
        ((getOldAdjacentValues demoVLT [0] [0] [[0], [0]] [0] [1]).2.2).CFL.getD i 0 = 1/10) →
      getFigureOfMerit ((getOldAdjacentValues demoVLT [0] [0] [[0], [0]] [0] [1]).2.2) = some 2) :=
  vanLeer_CFL_figureOfMerit demoVLT [0] [0] [[0], [0]] [0] [1] (by decide) (by decide) (by decide)

/-! ## Term algebra (term.py lines 46-439) -/

mutual
/-- Expression trees built by `Term`'s operator overloads.  A `leaf` is a
concrete `Term` subclass instance (its class identified by `kind`, with
its `coeff` and optional bound `var`); `binaryTerm` is the
`_BinaryTerm(self, other)` composite built by `__add__`;
`coupledBinaryTerm` is the `_CoupledBinaryTerm(self, other)` composite
built by `__and__`. -/
inductive TermExpr where
  | leaf (kind : ℕ) (coeff : ℚ) (var : Option ℕ)
  | binaryTerm (term : TermExpr) (other : PyObj)
  | coupledBinaryTerm (term : TermExpr) (other : TermExpr)

/-- A Python operand handed to one of `Term`'s operators: an `int`, a
`float`, another `Term`, or some unrelated object. -/
inductive PyObj where
  | pyInt (n : ℤ)
  | pyFloat (q : ℚ)
  | pyTerm (t : TermExpr)
  | pyOther
end

/-- Test for `isinstance(other, (int, float))`. -/
def PyObj.isNumeric : PyObj → Bool
  | .pyInt _ => true
  | .pyFloat _ => true
  | _ => false

/-- Test for `isinstance(other, Term)`. -/
def PyObj.isTerm : PyObj → Bool
  | .pyTerm _ => true
  | _ => false

/-- Transcription of `Term.__add__` (term.py lines 285-301): adding an
`int` or `float` equal to zero returns `self` itself; any other operand
produces the new composite `_BinaryTerm(self, other)`. -/
def Term.add (self : TermExpr) (other : PyObj) : TermExpr :=
  match other with
  | .pyInt n => if n = 0 then self else .binaryTerm self (.pyInt n)
  | .pyFloat q => if q = 0 then self else .binaryTerm self (.pyFloat q)
  | o => .binaryTerm self o

mutual
/-- Negation of a term.  The leaf case transcribes `Term.__neg__`
(term.py lines 305-316): a new instance of the same class with negated
coefficient and the same variable.  The composite subclasses' overrides
of `__neg__` are not among the sources under verification, so those
cases are Modelled from the spec: negation distributes to both branches
of a composite. -/
def Term.neg : TermExpr → TermExpr
  | .leaf k c v => .leaf k (-c) v
  | .binaryTerm t o => .binaryTerm (Term.neg t) (PyObj.negObj o)
  | .coupledBinaryTerm a b => .coupledBinaryTerm (Term.neg a) (Term.neg b)

/-- Negation of an operand, as evaluated by Python in `self + (-other)`:
numeric negation on numbers, `Term.__neg__` on terms.  Negating an
unrelated object would raise a `TypeError` in Python; that case is kept
total here and never relied upon by a theorem. -/
def PyObj.negObj : PyObj → PyObj
  | .pyInt n => .pyInt (-n)
  | .pyFloat q => .pyFloat (-q)
  | .pyTerm t => .pyTerm (Term.neg t)
  | .pyOther => .pyOther
end

/-- Transcription of `Term.__sub__` (term.py lines 328-338):
`self + (-other)`. -/
def Term.sub (self : TermExpr) (other : PyObj) : TermExpr :=
  Term.add self (PyObj.negObj other)

/-- Transcription of `Term.__eq__` (term.py lines 350-381):
`return self - other`; equating terms never yields a boolean. -/
def Term.eq (self : TermExpr) (other : PyObj) : TermExpr :=
  Term.sub self other

mutual
/-- Scaling by a number, as in `self.__class__(coeff=other * self.coeff,
var=self.var)` from `Term.__mul__` (term.py line 393) for the leaf case.
Composite subclasses handle scaling outside the sources under
verification, so those cases are Modelled from the spec: scaling is
linear, distributing over the branches of a composite. -/
def Term.scaleCoeff : TermExpr → ℚ → TermExpr
  | .leaf k c v, q => .leaf k (q * c) v
  | .binaryTerm t o, q => .binaryTerm (Term.scaleCoeff t q) (PyObj.scaleObj o q)
  | .coupledBinaryTerm a b, q => .coupledBinaryTerm (Term.scaleCoeff a q) (Term.scaleCoeff b q)

/-- Scaling of a stored operand by a number (see `Term.scaleCoeff`). -/
def PyObj.scaleObj : PyObj → ℚ → PyObj
  | .pyInt n, q => .pyFloat (q * n)
  | .pyFloat x, q => .pyFloat (q * x)
  | .pyTerm t, q => .pyTerm (Term.scaleCoeff t q)
  | .pyOther, _ => .pyOther
end

/-- Transcription of `Term.__mul__` (term.py lines 383-397): multiplying
by an `int` or `float` rescales the coefficient; any other operand raises
`Exception("Must multiply terms by int or float.")` immediately. -/
def Term.mul (self : TermExpr) (other : PyObj) : Except String TermExpr :=
  match other with
  | .pyInt n => .ok (Term.scaleCoeff self (n : ℚ))
  | .pyFloat q => .ok (Term.scaleCoeff self q)
  | _ => .error "Must multiply terms by int or float."

/-- Transcription of `Term.__and__` (term.py lines 409-421): coupling
with another `Term` returns `_CoupledBinaryTerm(self, other)`, while any
other operand raises a bare `Exception` immediately.  The
`_CoupledBinaryTerm` constructor itself is not among the sources under
verification and term.py's own doctests (lines 566-569, 590-605) show it
raising coupling-count and variable-mixing errors at construction time,
so it enters here as the abstract parameter `coupledCtor`, whose error
results `__and__` propagates unchanged. -/
def Term.andTerm (coupledCtor : TermExpr → TermExpr → Except String TermExpr)
    (self : TermExpr) (other : PyObj) : Except String TermExpr :=
  match other with
  | .pyTerm t => coupledCtor self t
  | _ => .error "Exception"

mutual
/-- Structural depth of a term tree, used to show that composition
returns a strictly larger tree. -/
def TermExpr.depth : TermExpr → ℕ
  | .leaf _ _ _ => 0
  | .binaryTerm t o => TermExpr.depth t + PyObj.depthO o + 1
  | .coupledBinaryTerm a b => TermExpr.depth a + TermExpr.depth b + 1

/-- Structural depth of an operand (see `TermExpr.depth`). -/
def PyObj.depthO : PyObj → ℕ
  | .pyTerm t => TermExpr.depth t + 1
  | _ => 0
end

/-- C3 counterexample: expression composition is not exception-free.
Multiplying a term by a non-numeric operand raises
`Exception("Must multiply terms by int or float.")` synchronously at
composition time, not at build time. -/
theorem mul_raises_at_composition :
    Term.mul (TermExpr.leaf 0 1 none) PyObj.pyOther =
      Except.error "Must multiply terms by int or float." := rfl

/-- C3 (amended): expression construction is not exception-free and its
validation is not all deferred to build time: `*` succeeds exactly on
`int`/`float` operands and otherwise raises its invalid-operand error at
composition time; `&` raises immediately on any non-`Term` operand, and
on a `Term` operand returns whatever the `_CoupledBinaryTerm`
constructor produces — term.py's doctests (lines 566-569, 590-605) show
that constructor raising coupling-count and variable-mixing errors at
composition time, just as they show the `_BinaryTerm` constructor
invoked by `+` raising the variable-mixing error at composition time
(lines 557-560), so any error the constructor raises surfaces at
composition. -/
theorem composition_error_behavior
    (coupledCtor : TermExpr → TermExpr → Except String TermExpr)
    (t : TermExpr) (o : PyObj) :
    ((∃ r, Term.mul t o = Except.ok r) ↔ o.isNumeric = true) ∧
    (o.isNumeric = false →
      Term.mul t o = Except.error "Must multiply terms by int or float.") ∧
    (o.isTerm = false → Term.andTerm coupledCtor t o = Except.error "Exception") ∧
    (∀ u, o = PyObj.pyTerm u → Term.andTerm coupledCtor t o = coupledCtor t u) ∧
    (∀ u e, o = PyObj.pyTerm u → coupledCtor t u = Except.error e →
      Term.andTerm coupledCtor t o = Except.error e) := by
  cases o <;>
    simp [Term.mul, Term.andTerm, PyObj.isNumeric, PyObj.isTerm]
  exact fun u e hu he => by rw [hu]; exact he

/-- A coupling constructor that fails its validation, as
`_CoupledBinaryTerm` does on a coupling-count mismatch
(term.py doctest lines 566-569). -/
def demoFailingCoupledCtor : TermExpr → TermExpr → Except String TermExpr :=
  fun _ _ => .error "Different number of solution variables and equations."

theorem composition_error_behavior_witness :
    Term.mul (TermExpr.leaf 0 2 none) PyObj.pyOther =
      Except.error "Must multiply terms by int or float." ∧
    Term.andTerm demoFailingCoupledCtor (TermExpr.leaf 0 2 none) PyObj.pyOther =
      Except.error "Exception" ∧
    Term.andTerm demoFailingCoupledCtor (TermExpr.leaf 0 2 none)
        (PyObj.pyTerm (TermExpr.leaf 1 3 none)) =
      Except.error "Different number of solution variables and equations." :=
  ⟨(composition_error_behavior demoFailingCoupledCtor (TermExpr.leaf 0 2 none)
      PyObj.pyOther).2.1 (by decide),
   (composition_error_behavior demoFailingCoupledCtor (TermExpr.leaf 0 2 none)
      PyObj.pyOther).2.2.1 (by decide),
   (composition_error_behavior demoFailingCoupledCtor (TermExpr.leaf 0 2 none)
      (PyObj.pyTerm (TermExpr.leaf 1 3 none))).2.2.2.2
     (TermExpr.leaf 1 3 none) "Different number of solution variables and equations."
     rfl rfl⟩

/-- C6: equation equality is subtraction: for every term `t` and every
operand that is another term or a number, `t == x` returns exactly the
composite returned by `t - x`, which in turn is `t + (-x)`; by
construction `Term.eq` returns a `TermExpr`, never a boolean. -/
theorem eq_is_sub (t : TermExpr) (o : PyObj)
    (h : o.isNumeric = true ∨ o.isTerm = true) :
    Term.eq t o = Term.sub t o ∧ Term.sub t o = Term.add t (PyObj.negObj o) :=
  ⟨rfl, rfl⟩

theorem eq_is_sub_witness :
    Term.eq (TermExpr.leaf 0 1 none) (PyObj.pyFloat 3) =
      Term.sub (TermExpr.leaf 0 1 none) (PyObj.pyFloat 3) ∧
    Term.sub (TermExpr.leaf 0 1 none) (PyObj.pyFloat 3) =
      Term.add (TermExpr.leaf 0 1 none) (PyObj.negObj (PyObj.pyFloat 3)) :=
  eq_is_sub (TermExpr.leaf 0 1 none) (PyObj.pyFloat 3) (Or.inl (by decide))

/-! ## Term solve/sweep driver and matrix caching (term.py lines 50-283) -/

/-- Sparse matrix handed between assembly and solver (opaque payload). -/
abbrev SpMatrix := List (List ℚ)

/-- Right-hand-side vector handed between assembly and solver. -/
abbrev RHSVec := List ℚ

/-- The per-instance mutable state that `Term.__init__` (term.py lines
62-68) sets up and that the caching and build methods manipulate:
the bound variable `self.var`, the sticky flags `self._cacheMatrix` and
`self._cacheRHSvector`, and the retained `self.matrix` and
`self.RHSvector`. -/
structure TermState where
  var : Option ℕ
  cacheMatrixFlag : Bool
  matrix : Option SpMatrix
  cacheRHSflag : Bool
  RHSvector : Option RHSVec

/-- The defaults of `Term.__init__`: caching off, nothing retained. -/
def Term.init (v : Option ℕ) : TermState :=
  { var := v, cacheMatrixFlag := false, matrix := none,
    cacheRHSflag := false, RHSvector := none }

/-- Transcription of `Term.cacheMatrix` (lines 235-240): set the sticky
flag. -/
def Term.cacheMatrix (t : TermState) : TermState := { t with cacheMatrixFlag := true }

/-- Transcription of `Term.cacheRHSvector` (lines 257-262). -/
def Term.cacheRHSvector (t : TermState) : TermState := { t with cacheRHSflag := true }

/-- Transcription of `Term.getMatrix` (lines 242-255): if the flag is not
set, warn and call `cacheMatrix()` as a side effect; either way return
the currently stored `self.matrix`. -/
def Term.getMatrix (t : TermState) : Option SpMatrix × TermState :=
  if t.cacheMatrixFlag then (t.matrix, t) else (t.matrix, Term.cacheMatrix t)

/-- Transcription of `Term.getRHSvector` (lines 264-277). -/
def Term.getRHSvector (t : TermState) : Option RHSVec × TermState :=
  if t.cacheRHSflag then (t.RHSvector, t) else (t.RHSvector, Term.cacheRHSvector t)

/-- Transcription of `Term._verifyVar` (lines 79-86): an explicit `var`
argument wins; otherwise fall back on `self.var`; if both are absent
raise `Exception("The solution variable needs to be specified")`. -/
def verifyVar (selfVar argVar : Option ℕ) : Except String ℕ :=
  match argVar with
  | none =>
    match selfVar with
    | none => .error "The solution variable needs to be specified"
    | some v => .ok v
  | some v => .ok v

/-- Modelled from the spec: the state the external solver collaborator
holds after `solver._storeMatrix(var, matrix, RHSvector)`; the concrete
solver classes are not among the sources under verification. -/
structure SolverState where
  var : ℕ
  matrix : SpMatrix
  RHSvector : RHSVec

/-- The solver calls a driver entry point makes, in order.  Only
`solveStep` (`solver._solve()`) writes the solution variable; the spec
describes the others as matrix/RHS- or residual-side operations. -/
inductive SolverEvent where
  | storeMatrix
  | applyUnderRelaxation
  | calcResidual
  | calcResidualVector
  | solveStep
deriving DecidableEq

/-- Transcription of `Term.__buildMatrix` (lines 96-130): verify the
variable, check that `dt` is a scalar (its `numerix` shape, passed here
as `dtShape`, must be `()`), reset every boundary condition's applied
flag, call the subclass stencil assembly `self._buildMatrix` (abstract
here: the parameter `assemble`), then retain or discard the matrix and
RHS vector according to the sticky flags.  Returns the updated term
state, the solver state after `solver._storeMatrix`, and the reset
boundary-condition flags. -/
def buildMatrix (t : TermState) (argVar : Option ℕ)
    (assemble : ℕ → ℚ → SpMatrix × RHSVec) (bcs : List Bool)
    (dtShape : List ℕ) (dt : ℚ) :
    Except String (TermState × SolverState × List Bool) :=
  match verifyVar t.var argVar with
  | .error e => .error e
  | .ok v =>
    if dtShape = [] then
      let bcsReset := bcs.map (fun _ => false)
      let mr := assemble v dt
      let t' := { t with matrix := if t.cacheMatrixFlag then some mr.1 else none,
                         RHSvector := if t.cacheRHSflag then some mr.2 else none }
      .ok (t', { var := v, matrix := mr.1, RHSvector := mr.2 }, bcsReset)
    else .error "`dt` must be a single number"

/-- Transcription of `Term.solve` (lines 144-161): build the system and
hand it to the solver's in-place solve, which (Modelled from the spec:
the solver writes the solution into the variable) replaces the solution
variable's value in the store; no residual, no under-relaxation. -/
def Term.solve (t : TermState) (argVar : Option ℕ)
    (assemble : ℕ → ℚ → SpMatrix × RHSVec)
    (solveFn : SpMatrix → RHSVec → List ℚ → List ℚ)
    (bcs : List Bool) (dtShape : List ℕ) (dt : ℚ) (store : ℕ → List ℚ) :
    Except String (TermState × (ℕ → List ℚ) × List SolverEvent) :=
  match buildMatrix t argVar assemble bcs dtShape dt with
  | .error e => .error e
  | .ok (t', sv, _) =>
    .ok (t',
      fun w => if w = sv.var then solveFn sv.matrix sv.RHSvector (store sv.var) else store w,
      [SolverEvent.storeMatrix, SolverEvent.solveStep])

/-- Transcription of `Term.sweep` (lines 163-185): build, apply
under-relaxation (the solver-side hook, abstract parameter `urFn`),
compute the residual of the relaxed system, then solve it; returns the
residual. -/
def Term.sweep (t : TermState) (argVar : Option ℕ)
    (assemble : ℕ → ℚ → SpMatrix × RHSVec)
    (solveFn : SpMatrix → RHSVec → List ℚ → List ℚ)
    (underRelaxation : Option ℚ)
    (urFn : Option ℚ → SpMatrix × RHSVec → SpMatrix × RHSVec)
    (residFn : SpMatrix → RHSVec → List ℚ → List ℚ)
    (bcs : List Bool) (dtShape : List ℕ) (dt : ℚ) (store : ℕ → List ℚ) :
    Except String (TermState × List ℚ × (ℕ → List ℚ) × List SolverEvent) :=
  match buildMatrix t argVar assemble bcs dtShape dt with
  | .error e => .error e
  | .ok (t', sv, _) =>
    let mr := urFn underRelaxation (sv.matrix, sv.RHSvector)
    let residual := residFn mr.1 mr.2 (store sv.var)
    .ok (t', residual,
      fun w => if w = sv.var then solveFn mr.1 mr.2 (store sv.var) else store w,
      [SolverEvent.storeMatrix, SolverEvent.applyUnderRelaxation,
       SolverEvent.calcResidual, SolverEvent.solveStep])

/-- Transcription of `Term.justResidualVector` (lines 187-206): build,
apply under-relaxation, return the residual vector; `solver._solve()` is
never called, so the variable store is returned untouched. -/
def Term.justResidualVector (t : TermState) (argVar : Option ℕ)
    (assemble : ℕ → ℚ → SpMatrix × RHSVec)
    (underRelaxation : Option ℚ)
    (urFn : Option ℚ → SpMatrix × RHSVec → SpMatrix × RHSVec)
    (residFn : SpMatrix → RHSVec → List ℚ → List ℚ)
    (bcs : List Bool) (dtShape : List ℕ) (dt : ℚ) (store : ℕ → List ℚ) :
    Except String (TermState × List ℚ × (ℕ → List ℚ) × List SolverEvent) :=
  match buildMatrix t argVar assemble bcs dtShape dt with
  | .error e => .error e
  | .ok (t', sv, _) =>
    let mr := urFn underRelaxation (sv.matrix, sv.RHSvector)
    .ok (t', residFn mr.1 mr.2 (store sv.var), store,
      [SolverEvent.storeMatrix, SolverEvent.applyUnderRelaxation,
       SolverEvent.calcResidualVector])

/-- The sum of squares of a vector; `numerix.L2norm` is the square root
of this quantity, which is irrational in general, so the square is the
quantity tracked in this rational embedding. -/
def L2normSq (v : List ℚ) : ℚ := (v.map (fun x => x * x)).sum

/-- Transcription of `Term.residualVectorAndNorm` (lines 208-230): like
`justResidualVector` but also returns the L2 norm (tracked here by its
square `L2normSq`) of the residual vector. -/
def Term.residualVectorAndNorm (t : TermState) (argVar : Option ℕ)
    (assemble : ℕ → ℚ → SpMatrix × RHSVec)
    (underRelaxation : Option ℚ)
    (urFn : Option ℚ → SpMatrix × RHSVec → SpMatrix × RHSVec)
    (residFn : SpMatrix → RHSVec → List ℚ → List ℚ)
    (bcs : List Bool) (dtShape : List ℕ) (dt : ℚ) (store : ℕ → List ℚ) :
    Except String (TermState × (List ℚ × ℚ) × (ℕ → List ℚ) × List SolverEvent) :=
  match buildMatrix t argVar assemble bcs dtShape dt with
  | .error e => .error e
  | .ok (t', sv, _) =>
    let mr := urFn underRelaxation (sv.matrix, sv.RHSvector)
    let vector := residFn mr.1 mr.2 (store sv.var)
    .ok (t', (vector, L2normSq vector), store,
      [SolverEvent.storeMatrix, SolverEvent.applyUnderRelaxation,
       SolverEvent.calcResidualVector])

theorem buildMatrix_error (t : TermState) (argVar : Option ℕ)
    (assemble : ℕ → ℚ → SpMatrix × RHSVec) (bcs : List Bool)
    (dtShape : List ℕ) (dt : ℚ) {e : String}
    (he : verifyVar t.var argVar = .error e) :
    buildMatrix t argVar assemble bcs dtShape dt = .error e := by
  simp only [buildMatrix, he]

theorem buildMatrix_ok (t : TermState) (argVar : Option ℕ)
    (assemble : ℕ → ℚ → SpMatrix × RHSVec) (bcs : List Bool) (dt : ℚ) {v : ℕ}
    (hv : verifyVar t.var argVar = .ok v) :
    buildMatrix t argVar assemble bcs [] dt =
      .ok ({ t with matrix := if t.cacheMatrixFlag then some (assemble v dt).1 else none,
                    RHSvector := if t.cacheRHSflag then some (assemble v dt).2 else none },
           { var := v, matrix := (assemble v dt).1, RHSvector := (assemble v dt).2 },
           bcs.map (fun _ => false)) := by
  simp only [buildMatrix, hv, if_pos]

/-- C5: matrix/RHS cache invariant: after every build, the stored matrix
equals the just-assembled matrix exactly when the sticky `cacheMatrix`
flag is set (and likewise for the RHS vector); a fresh term (default
flags) discards both, a term on which both cache methods were called
retains both, and `solve`'s state update is the one `buildMatrix`
produced. -/
theorem matrix_cache_invariant (t : TermState) (argVar : Option ℕ)
    (assemble : ℕ → ℚ → SpMatrix × RHSVec)
    (solveFn : SpMatrix → RHSVec → List ℚ → List ℚ)
    (bcs : List Bool) (dt : ℚ) (store : ℕ → List ℚ) :
    (∀ t' sv bcs', buildMatrix t argVar assemble bcs [] dt = .ok (t', sv, bcs') →
      t'.matrix = (if t.cacheMatrixFlag then some sv.matrix else none) ∧
      t'.RHSvector = (if t.cacheRHSflag then some sv.RHSvector else none)) ∧
    (∀ v t' sv bcs',
      buildMatrix (Term.init (some v)) argVar assemble bcs [] dt = .ok (t', sv, bcs') →
      t'.matrix = none ∧ t'.RHSvector = none) ∧
    (∀ t' sv bcs',
      buildMatrix (Term.cacheMatrix (Term.cacheRHSvector t)) argVar assemble bcs [] dt =
        .ok (t', sv, bcs') →
      t'.matrix = some sv.matrix ∧ t'.RHSvector = some sv.RHSvector) ∧
    (∀ t' store' ev, Term.solve t argVar assemble solveFn bcs [] dt store = .ok (t', store', ev) →
      ∃ sv bcs', buildMatrix t argVar assemble bcs [] dt = .ok (t', sv, bcs')) := by
  refine ⟨?_, ?_, ?_, ?_⟩
  · intro t' sv bcs' h
    cases hv : verifyVar t.var argVar with
    | error e => rw [buildMatrix_error t argVar assemble bcs [] dt hv] at h; exact absurd h (by simp)
    | ok v =>
      rw [buildMatrix_ok t argVar assemble bcs dt hv] at h
      simp only [Except.ok.injEq, Prod.mk.injEq] at h
      rw [← h.1, ← h.2.1]
      exact ⟨rfl, rfl⟩
  · intro v t' sv bcs' h
    cases hv : verifyVar (Term.init (some v)).var argVar with
    | error e =>
      rw [buildMatrix_error (Term.init (some v)) argVar assemble bcs [] dt hv] at h
      exact absurd h (by simp)
    | ok w =>
      rw [buildMatrix_ok (Term.init (some v)) argVar assemble bcs dt hv] at h
      simp only [Except.ok.injEq, Prod.mk.injEq] at h
      rw [← h.1]
      exact ⟨rfl, rfl⟩
  · intro t' sv bcs' h
    cases hv : verifyVar (Term.cacheMatrix (Term.cacheRHSvector t)).var argVar with
    | error e =>
      rw [buildMatrix_error _ argVar assemble bcs [] dt hv] at h
      exact absurd h (by simp)
    | ok v =>
      rw [buildMatrix_ok _ argVar assemble bcs dt hv] at h
      simp only [Except.ok.injEq, Prod.mk.injEq] at h
      rw [← h.1, ← h.2.1]
      exact ⟨rfl, rfl⟩
  · intro t' store' ev h
    cases hb : buildMatrix t argVar assemble bcs [] dt with
    | error e => simp [Term.solve, hb] at h
    | ok trip =>
      obtain ⟨a, sv, bcs'⟩ := trip
      simp only [Term.solve, hb] at h
      simp only [Except.ok.injEq, Prod.mk.injEq] at h
      exact ⟨sv, bcs', by rw [h.1]⟩

/-- A concrete stencil assembly for instantiating driver theorems. -/
def demoAssemble : ℕ → ℚ → SpMatrix × RHSVec := fun _ _ => ([[1]], [1])

/-- A concrete solver solve function. -/
def demoSolveFn : SpMatrix → RHSVec → List ℚ → List ℚ := fun _ r _ => r

/-- A concrete under-relaxation hook (no damping). -/
def demoUrFn : Option ℚ → SpMatrix × RHSVec → SpMatrix × RHSVec := fun _ p => p

/-- A concrete residual function. -/
def demoResidFn : SpMatrix → RHSVec → List ℚ → List ℚ := fun _ r _ => r

/-- A concrete variable store. -/
def demoStore : ℕ → List ℚ := fun _ => [5]

theorem matrix_cache_invariant_witness :
    ({ var := some 0, cacheMatrixFlag := true, matrix := some [[1]],
       cacheRHSflag := true, RHSvector := some [1] } : TermState).matrix =
      some (SolverState.mk 0 [[1]] [1]).matrix ∧
    ({ var := some 0, cacheMatrixFlag := true, matrix := some [[1]],
       cacheRHSflag := true, RHSvector := some [1] } : TermState).RHSvector =
      some (SolverState.mk 0 [[1]] [1]).RHSvector :=
  (matrix_cache_invariant (Term.init (some 0)) none demoAssemble demoSolveFn
    [] 1 demoStore).2.2.1
    { var := some 0, cacheMatrixFlag := true, matrix := some [[1]],
      cacheRHSflag := true, RHSvector := some [1] }
    (SolverState.mk 0 [[1]] [1]) [] rfl

/-- C7: missing-variable error: a term with no bound variable, asked to
solve (or sweep, or compute residuals) without a `var` argument, raises
the missing-solution-variable error; if the term has a bound variable or
a `var` argument is supplied, the error is not raised and (for a scalar
`dt`) every entry point proceeds to a result. -/
theorem missing_variable_spec (t : TermState) (argVar : Option ℕ)
    (assemble : ℕ → ℚ → SpMatrix × RHSVec)
    (solveFn : SpMatrix → RHSVec → List ℚ → List ℚ)
    (underRelaxation : Option ℚ)
    (urFn : Option ℚ → SpMatrix × RHSVec → SpMatrix × RHSVec)
    (residFn : SpMatrix → RHSVec → List ℚ → List ℚ)
    (bcs : List Bool) (dt : ℚ) (store : ℕ → List ℚ) :
    (t.var = none → argVar = none →
      Term.solve t argVar assemble solveFn bcs [] dt store =
        .error "The solution variable needs to be specified" ∧
      Term.sweep t argVar assemble solveFn underRelaxation urFn residFn bcs [] dt store =
        .error "The solution variable needs to be specified" ∧
      Term.justResidualVector t argVar assemble underRelaxation urFn residFn bcs [] dt store =
        .error "The solution variable needs to be specified" ∧
      Term.residualVectorAndNorm t argVar assemble underRelaxation urFn residFn bcs [] dt store =
        .error "The solution variable needs to be specified") ∧
    (t.var ≠ none ∨ argVar ≠ none →
      (∃ r, Term.solve t argVar assemble solveFn bcs [] dt store = .ok r) ∧
      (∃ r, Term.sweep t argVar assemble solveFn underRelaxation urFn residFn bcs [] dt store = .ok r) ∧
      (∃ r, Term.justResidualVector t argVar assemble underRelaxation urFn residFn bcs [] dt store = .ok r) ∧
      (∃ r, Term.residualVectorAndNorm t argVar assemble underRelaxation urFn residFn bcs [] dt store = .ok r)) := by
  constructor
  · intro h1 h2
    have herr : buildMatrix t argVar assemble bcs [] dt =
        .error "The solution variable needs to be specified" :=
      buildMatrix_error t argVar assemble bcs [] dt (by rw [h1, h2]; rfl)
    refine ⟨?_, ?_, ?_, ?_⟩ <;>
      simp [Term.solve, Term.sweep, Term.justResidualVector, Term.residualVectorAndNorm, herr]
  · intro h
    have hex : ∃ v, verifyVar t.var argVar = .ok v := by
      cases hv : argVar with
      | some w => exact ⟨w, rfl⟩
      | none =>
        cases htv : t.var with
        | none =>
          rcases h with h1 | h2
          · exact absurd htv h1
          · exact absurd hv h2
        | some u => exact ⟨u, rfl⟩
    obtain ⟨v, hv⟩ := hex
    have hok := buildMatrix_ok t argVar assemble bcs dt hv
    refine ⟨?_, ?_, ?_, ?_⟩ <;>
      simp only [Term.solve, Term.sweep, Term.justResidualVector,
        Term.residualVectorAndNorm, hok] <;>
      exact ⟨_, rfl⟩

theorem missing_variable_spec_witness :
    Term.solve (Term.init none) none demoAssemble demoSolveFn [] [] 1 demoStore =
      .error "The solution variable needs to be specified" ∧
    ∃ r, Term.solve (Term.init (some 0)) none demoAssemble demoSolveFn [] [] 1 demoStore =
      .ok r :=
  ⟨((missing_variable_spec (Term.init none) none demoAssemble demoSolveFn none demoUrFn
      demoResidFn [] 1 demoStore).1 rfl rfl).1,
   ((missing_variable_spec (Term.init (some 0)) none demoAssemble demoSolveFn none demoUrFn
      demoResidFn [] 1 demoStore).2 (Or.inl (by decide))).1⟩

/-- C9: an explicit `var` argument takes precedence over the bound
variable: `_verifyVar` returns the supplied argument whenever it is not
`None`, ignoring `self.var`, and `solve` then resolves the system for
that argument; the bound variable is consulted only when the argument is
`None`. -/
theorem explicit_var_precedence (t : TermState) (v : ℕ)
    (assemble : ℕ → ℚ → SpMatrix × RHSVec)
    (solveFn : SpMatrix → RHSVec → List ℚ → List ℚ)
    (bcs : List Bool) (dt : ℚ) (store : ℕ → List ℚ) :
    verifyVar t.var (some v) = .ok v ∧
    (∀ w, t.var = some w → verifyVar t.var none = .ok w) ∧
    Term.solve t (some v) assemble solveFn bcs [] dt store =
      .ok ({ t with matrix := if t.cacheMatrixFlag then some (assemble v dt).1 else none,
                    RHSvector := if t.cacheRHSflag then some (assemble v dt).2 else none },
           fun w => if w = v then solveFn (assemble v dt).1 (assemble v dt).2 (store v) else store w,
           [SolverEvent.storeMatrix, SolverEvent.solveStep]) := by
  refine ⟨rfl, ?_, ?_⟩
  · intro w hw
    rw [hw]
    rfl
  · have hok := buildMatrix_ok t (some v) assemble bcs dt rfl
    simp only [Term.solve, hok]

theorem explicit_var_precedence_witness :
    verifyVar (Term.init (some 7)).var (some 3) = Except.ok 3 ∧
    verifyVar (Term.init (some 7)).var none = Except.ok 7 :=
  ⟨(explicit_var_precedence (Term.init (some 7)) 3 demoAssemble demoSolveFn [] 1 demoStore).1,
   (explicit_var_precedence (Term.init (some 7)) 3 demoAssemble demoSolveFn
      [] 1 demoStore).2.1 7 rfl⟩

/-- C8: residual-only entry points do not solve: `justResidualVector`
and `residualVectorAndNorm` build the linear system, apply
under-relaxation and compute the residual vector (and, for the latter,
its L2 norm, tracked by its square) while never emitting the solver's
`solveStep`, so the variable store they return is exactly the one they
were given. -/
theorem residual_entry_points_no_solve (t : TermState) (argVar : Option ℕ)
    (assemble : ℕ → ℚ → SpMatrix × RHSVec)
    (underRelaxation : Option ℚ)
    (urFn : Option ℚ → SpMatrix × RHSVec → SpMatrix × RHSVec)
    (residFn : SpMatrix → RHSVec → List ℚ → List ℚ)
    (bcs : List Bool) (dt : ℚ) (store : ℕ → List ℚ) :
    (∀ t' vec store' ev,
      Term.justResidualVector t argVar assemble underRelaxation urFn residFn bcs [] dt store =
        .ok (t', vec, store', ev) →
      store' = store ∧ SolverEvent.solveStep ∉ ev ∧
      SolverEvent.applyUnderRelaxation ∈ ev ∧ SolverEvent.calcResidualVector ∈ ev ∧
      ∃ sv bcs', buildMatrix t argVar assemble bcs [] dt = .ok (t', sv, bcs') ∧
        vec = residFn (urFn underRelaxation (sv.matrix, sv.RHSvector)).1
                      (urFn underRelaxation (sv.matrix, sv.RHSvector)).2 (store sv.var)) ∧
    (∀ t' vecnorm store' ev,
      Term.residualVectorAndNorm t argVar assemble underRelaxation urFn residFn bcs [] dt store =
        .ok (t', vecnorm, store', ev) →
      store' = store ∧ SolverEvent.solveStep ∉ ev ∧ vecnorm.2 = L2normSq vecnorm.1) := by
  constructor
  · intro t' vec store' ev h
    cases hb : buildMatrix t argVar assemble bcs [] dt with
    | error e => simp [Term.justResidualVector, hb] at h
    | ok trip =>
      obtain ⟨a, sv, bcs2⟩ := trip
      simp only [Term.justResidualVector, hb] at h
      simp only [Except.ok.injEq, Prod.mk.injEq] at h
      obtain ⟨ht, hvec, hstore, hev⟩ := h
      refine ⟨hstore.symm, ?_, ?_, ?_, sv, bcs2, by rw [ht], hvec.symm⟩
      · rw [← hev]; decide
      · rw [← hev]; decide
      · rw [← hev]; decide
  · intro t' vecnorm store' ev h
    cases hb : buildMatrix t argVar assemble bcs [] dt with
    | error e => simp [Term.residualVectorAndNorm, hb] at h
    | ok trip =>
      obtain ⟨a, sv, bcs2⟩ := trip
      simp only [Term.residualVectorAndNorm, hb] at h
      simp only [Except.ok.injEq, Prod.mk.injEq] at h
      obtain ⟨ht, hvn, hstore, hev⟩ := h
      refine ⟨hstore.symm, ?_, ?_⟩
      · rw [← hev]; decide
      · rw [← hvn]

theorem residual_entry_points_no_solve_witness :
    demoStore = demoStore ∧
    SolverEvent.solveStep ∉ [SolverEvent.storeMatrix, SolverEvent.applyUnderRelaxation,
      SolverEvent.calcResidualVector] ∧
    SolverEvent.applyUnderRelaxation ∈ [SolverEvent.storeMatrix,
      SolverEvent.applyUnderRelaxation, SolverEvent.calcResidualVector] ∧
    SolverEvent.calcResidualVector ∈ [SolverEvent.storeMatrix,
      SolverEvent.applyUnderRelaxation, SolverEvent.calcResidualVector] ∧
    ∃ sv bcs', buildMatrix (Term.init (some 0)) none demoAssemble [] [] 1 =
        .ok (Term.init (some 0), sv, bcs') ∧
      ([1] : List ℚ) = demoResidFn (demoUrFn none (sv.matrix, sv.RHSvector)).1
        (demoUrFn none (sv.matrix, sv.RHSvector)).2 (demoStore sv.var) :=
  (residual_entry_points_no_solve (Term.init (some 0)) none demoAssemble none demoUrFn
      demoResidFn [] 1 demoStore).1
    (Term.init (some 0)) [1] demoStore
    [SolverEvent.storeMatrix, SolverEvent.applyUnderRelaxation,
      SolverEvent.calcResidualVector] rfl

/-- States of a Term's cache fields reachable through its public
operations: construction, the two cache-enabling methods, the two
getters (whose side effect is the point of claim C10), and a successful
build. -/
inductive Reach : TermState → Prop
  | init (v : Option ℕ) : Reach (Term.init v)
  | cacheM {t : TermState} : Reach t → Reach (Term.cacheMatrix t)
  | cacheR {t : TermState} : Reach t → Reach (Term.cacheRHSvector t)
  | getM {t : TermState} : Reach t → Reach (Term.getMatrix t).2
  | getR {t : TermState} : Reach t → Reach (Term.getRHSvector t).2
  | build {t t' : TermState} {sv : SolverState} {bcs' : List Bool}
      (argVar : Option ℕ) (assemble : ℕ → ℚ → SpMatrix × RHSVec)
      (bcs : List Bool) (dtShape : List ℕ) (dt : ℚ) :
      Reach t → buildMatrix t argVar assemble bcs dtShape dt = .ok (t', sv, bcs') →
      Reach t'

theorem buildMatrix_dt_error (t : TermState) (argVar : Option ℕ)
    (assemble : ℕ → ℚ → SpMatrix × RHSVec) (bcs : List Bool)
    (dtShape : List ℕ) (dt : ℚ) {v : ℕ}
    (hv : verifyVar t.var argVar = .ok v) (hd : dtShape ≠ []) :
    buildMatrix t argVar assemble bcs dtShape dt =
      .error "`dt` must be a single number" := by
  simp only [buildMatrix, hv, if_neg hd]

/-- In every reachable state, a clear cache flag means nothing is
retained: `self.matrix` (resp. `self.RHSvector`) is `None` whenever
`self._cacheMatrix` (resp. `self._cacheRHSvector`) is unset. -/
theorem Reach.cache_inv {t : TermState} (h : Reach t) :
    (t.cacheMatrixFlag = false → t.matrix = none) ∧
    (t.cacheRHSflag = false → t.RHSvector = none) := by
  induction h with
  | init v => exact ⟨fun _ => rfl, fun _ => rfl⟩
  | cacheM _ ih =>
    exact ⟨fun hf => by simp [Term.cacheMatrix] at hf, fun hf => ih.2 hf⟩
  | cacheR _ ih =>
    exact ⟨fun hf => ih.1 hf, fun hf => by simp [Term.cacheRHSvector] at hf⟩
  | getM _ ih =>
    rename_i t0 _
    by_cases hflag : t0.cacheMatrixFlag = true
    · simpa [Term.getMatrix, hflag] using ih
    · simp only [Term.getMatrix, if_neg hflag]
      exact ⟨fun hf => by simp [Term.cacheMatrix] at hf, fun hf => ih.2 hf⟩
  | getR _ ih =>
    rename_i t0 _
    by_cases hflag : t0.cacheRHSflag = true
    · simpa [Term.getRHSvector, hflag] using ih
    · simp only [Term.getRHSvector, if_neg hflag]
      exact ⟨fun hf => ih.1 hf, fun hf => by simp [Term.cacheRHSvector] at hf⟩
  | build argVar assemble bcs dtShape dt hr heq ih =>
    rename_i t0 t1 sv bcs'
    by_cases hdt : dtShape = []
    · subst hdt
      cases hv : verifyVar t0.var argVar with
      | error e =>
        rw [buildMatrix_error t0 argVar assemble bcs [] dt hv] at heq
        exact absurd heq (by simp)
      | ok v =>
        rw [buildMatrix_ok t0 argVar assemble bcs dt hv] at heq
        simp only [Except.ok.injEq, Prod.mk.injEq] at heq
        rw [← heq.1]
        constructor
        · intro hf; simp only at hf; simp [hf]
        · intro hf; simp only at hf; simp [hf]
    · cases hv : verifyVar t0.var argVar with
      | error e =>
        rw [buildMatrix_error t0 argVar assemble bcs dtShape dt hv] at heq
        exact absurd heq (by simp)
      | ok v =>
        rw [buildMatrix_dt_error t0 argVar assemble bcs dtShape dt hv hdt] at heq
        exact absurd heq (by simp)

/-- C10: querying an un-cached matrix self-enables caching: in any
reachable state with the matrix cache flag unset, `getMatrix()` returns
`None` for that call while setting the flag as a side effect, so a
subsequent build retains the assembled matrix and a later `getMatrix()`
returns it; likewise for `getRHSvector()`. -/
theorem get_uncached_self_caches (t : TermState) (h : Reach t) :
    (t.cacheMatrixFlag = false →
      Term.getMatrix t = (none, Term.cacheMatrix t) ∧
      (∀ (argVar : Option ℕ) (assemble : ℕ → ℚ → SpMatrix × RHSVec)
         (bcs : List Bool) (dt : ℚ) t' sv bcs',
        buildMatrix (Term.getMatrix t).2 argVar assemble bcs [] dt = .ok (t', sv, bcs') →
        t'.matrix = some sv.matrix ∧ Term.getMatrix t' = (some sv.matrix, t'))) ∧
    (t.cacheRHSflag = false →
      Term.getRHSvector t = (none, Term.cacheRHSvector t) ∧
      (∀ (argVar : Option ℕ) (assemble : ℕ → ℚ → SpMatrix × RHSVec)
         (bcs : List Bool) (dt : ℚ) t' sv bcs',
        buildMatrix (Term.getRHSvector t).2 argVar assemble bcs [] dt = .ok (t', sv, bcs') →
        t'.RHSvector = some sv.RHSvector ∧
        Term.getRHSvector t' = (some sv.RHSvector, t'))) := by
  have inv := Reach.cache_inv h
  constructor
  · intro hf
    have hm : t.matrix = none := inv.1 hf
    have hpair : Term.getMatrix t = (none, Term.cacheMatrix t) := by
      simp [Term.getMatrix, hf, hm]
    refine ⟨hpair, ?_⟩
    intro argVar assemble bcs dt t' sv bcs' hb
    rw [hpair] at hb
    cases hv : verifyVar (Term.cacheMatrix t).var argVar with
    | error e =>
      rw [buildMatrix_error _ argVar assemble bcs [] dt hv] at hb
      exact absurd hb (by simp)
    | ok v =>
      rw [buildMatrix_ok _ argVar assemble bcs dt hv] at hb
      simp only [Except.ok.injEq, Prod.mk.injEq] at hb
      obtain ⟨ht', hsv, _⟩ := hb
      rw [← ht', ← hsv]
      exact ⟨by simp [Term.cacheMatrix], by simp [Term.getMatrix, Term.cacheMatrix]⟩
  · intro hf
    have hm : t.RHSvector = none := inv.2 hf
    have hpair : Term.getRHSvector t = (none, Term.cacheRHSvector t) := by
      simp [Term.getRHSvector, hf, hm]
    refine ⟨hpair, ?_⟩
    intro argVar assemble bcs dt t' sv bcs' hb
    rw [hpair] at hb
    cases hv : verifyVar (Term.cacheRHSvector t).var argVar with
    | error e =>
      rw [buildMatrix_error _ argVar assemble bcs [] dt hv] at hb
      exact absurd hb (by simp)
    | ok v =>
      rw [buildMatrix_ok _ argVar assemble bcs dt hv] at hb
      simp only [Except.ok.injEq, Prod.mk.injEq] at hb
      obtain ⟨ht', hsv, _⟩ := hb
      rw [← ht', ← hsv]
      exact ⟨by simp [Term.cacheRHSvector], by simp [Term.getRHSvector, Term.cacheRHSvector]⟩

/-- The term-cache state after `getMatrix` on a fresh unbound term
followed by one successful build: flag set, matrix retained. -/
def demoCachedState : TermState :=
  { var := none, cacheMatrixFlag := true, matrix := some [[1]],
    cacheRHSflag := false, RHSvector := none }

theorem get_uncached_self_caches_witness :
    (Term.getMatrix (Term.init none) = (none, Term.cacheMatrix (Term.init none)) ∧
     (demoCachedState.matrix = some (SolverState.mk 0 [[1]] [1]).matrix ∧
      Term.getMatrix demoCachedState =
        (some (SolverState.mk 0 [[1]] [1]).matrix, demoCachedState))) :=
  ⟨((get_uncached_self_caches (Term.init none) (Reach.init none)).1 rfl).1,
   ((get_uncached_self_caches (Term.init none) (Reach.init none)).1 rfl).2
     (some 0) demoAssemble [] 1 demoCachedState (SolverState.mk 0 [[1]] [1]) [] rfl⟩
